import Mathlib

/-!
Verification of the `client` package of btbd/proxy (client/main.go).

The Go client is embedded shallowly:
  * `Pod` / `Proxy` mirror the Go structs (time is modelled as `Nat`,
    Go `int64`/`int` as `Int`); the Go `map[int]*Pod` becomes an
    association list `List (Int × Pod)` whose key set is kept duplicate
    free by the operations that build it.
  * Mutation through pointers becomes explicit state passing; the
    check-lock-check pattern collapses to a single check in this
    sequential model.
  * Network I/O is modelled by passing the outcome of each outbound
    call (`CallOutcome`) as data; `doLoop` consumes one outcome per
    attempt and additionally records the trace of outbound requests it
    issued, so that theorems can speak about the requests as sent.
-/

namespace ProxyClient

/-- Mirrors Go `Pod` (client/main.go): IP, Timestamp (modelled as `Nat`),
Counter (`-1` marks the pod dead), Free. -/
structure Pod where
  IP : String
  Timestamp : Nat
  Counter : Int
  Free : Int
deriving DecidableEq, Repr

/-- Mirrors the fields of Go `url.URL` that the client uses
(`Scheme`, host, `Port()`, `Path`). -/
structure URL where
  scheme : String
  host : String
  port : String
  path : String
deriving DecidableEq, Repr

/-- Rendering of a URL, as Go `u.String()` produces it for the URLs this
client builds (scheme://host:port/path). -/
def URL.toStr (u : URL) : String :=
  u.scheme ++ "://" ++ u.host ++ ":" ++ u.port ++ u.path

/-- Mirrors Go `Config`; only the fields read by `Do`/`Ensure` are kept
(the ping loop and debug printing are not modelled). -/
structure Config where
  NumberOfSenders : Nat
  Attempts : Nat
  WebhookCallbackURL : String
deriving DecidableEq, Repr

/-- Mirrors Go `Proxy`: the service URL, the StatefulSet resourceVersion,
the known pods and the last known pod ordinal. -/
structure Proxy where
  Service : URL
  Version : Int
  Pods : List (Int × Pod)
  LastPodOrdinal : Int
  Config : Config
deriving DecidableEq, Repr

/-- Lookup in the pod table, Go `p.Pods[ordinal]` (`nil, false` when absent). -/
def findPod (pods : List (Int × Pod)) (ordinal : Int) : Option Pod :=
  match pods with
  | [] => none
  | (k, v) :: t => if k = ordinal then some v else findPod t ordinal

/-- Lookup in a parsed proxy list, Go `newProxyList[ordinal]`. -/
def findIP (l : List (Int × String)) (ordinal : Int) : Option String :=
  match l with
  | [] => none
  | (k, v) :: t => if k = ordinal then some v else findIP t ordinal

/-- In-place update of the pod stored at an ordinal (Go mutates the `*Pod`
the map points to). -/
def setPod (pods : List (Int × Pod)) (ordinal : Int) (pod : Pod) : List (Int × Pod) :=
  pods.map (fun e => if e.1 = ordinal then (e.1, pod) else e)

/-- Go `markProxyPodAsDead`: set `Counter = -1` if the ordinal is known;
`Free` and `Timestamp` are left untouched. -/
def markProxyPodAsDead (p : Proxy) (proxyOrdinal : Int) : Proxy :=
  match findPod p.Pods proxyOrdinal with
  | none => p
  | some pod => { p with Pods := setPod p.Pods proxyOrdinal { pod with Counter := -1 } }

/-- Go `updateProxyPod`: no-op when the ordinal is unknown or the incoming
counter is not strictly greater than the stored one; otherwise store
counter, free and the current time.  (The Go double check before/after
taking the pod lock collapses to one check in this sequential model.) -/
def updateProxyPod (p : Proxy) (proxyOrdinal : Int) (proxyCounter proxyFree : Int)
    (now : Nat) : Proxy :=
  match findPod p.Pods proxyOrdinal with
  | none => p
  | some pod =>
    if proxyCounter ≤ pod.Counter then p
    else
      let pod' := { pod with Counter := proxyCounter, Free := proxyFree, Timestamp := now }
      { p with Pods := setPod p.Pods proxyOrdinal pod' }

/-- Go `math.MaxInt64`. -/
def maxInt64 : Int := 2 ^ 63 - 1

/-- The loop body of `determineBestProxyOrdinal` (Go, inside
`determineBestProxy`), over the list of ordinals still to scan.
Skips absent or dead pods; once the scan reaches `last` (the last pod
ordinal) with a positive best free count already found, it breaks and
returns the current best; otherwise a pod with a strictly larger free
count becomes the new best. -/
def bestScan (pods : List (Int × Pod)) (last : Int) :
    List Int → Int → Int → Int
  | [], bestOrdinal, _ => bestOrdinal
  | o :: rest, bestOrdinal, bestFree =>
    match findPod pods o with
    | none => bestScan pods last rest bestOrdinal bestFree
    | some pod =>
      if pod.Counter < 0 then bestScan pods last rest bestOrdinal bestFree
      else if o = last ∧ bestFree > 0 then bestOrdinal
      else if pod.Free > bestFree then bestScan pods last rest o pod.Free
      else bestScan pods last rest bestOrdinal bestFree

/-- The ordinals `0, 1, ..., last` visited by the Go `for` loop
(empty when `last < 0`). -/
def ordinalRange (last : Int) : List Int :=
  (List.range (last + 1).toNat).map Int.ofNat

/-- Go `determineBestProxyOrdinal`: scan `0..LastPodOrdinal` starting from
best ordinal `-1` and best free `-math.MaxInt64`. -/
def determineBestProxyOrdinal (p : Proxy) : Int :=
  bestScan p.Pods p.LastPodOrdinal (ordinalRange p.LastPodOrdinal) (-1) (-maxInt64)

/-- Go `formatURL`: `scheme://ip:port/path` using the service URL's
scheme, port and path. -/
def formatURL (p : Proxy) (ip : String) : String :=
  p.Service.scheme ++ "://" ++ ip ++ ":" ++ p.Service.port ++ p.Service.path

/-- Go `determineBestProxy`: returns `(ordinal, target URL)` and the
possibly-reset state.  An empty table yields the service URL directly;
a scan with no eligible pod clears the table and yields the service URL
(`ordinal = -1`); otherwise the chosen pod's formatted URL is returned.
(`url.Parse` of a URL formatted by `formatURL` cannot fail, so the Go
error return is not modelled.) -/
def determineBestProxy (p : Proxy) : (Int × String) × Proxy :=
  if p.Pods = [] then ((-1, p.Service.toStr), p)
  else
    let ordinal := determineBestProxyOrdinal p
    if ordinal < 0 then
      ((-1, p.Service.toStr), { p with Pods := [], LastPodOrdinal := 0 })
    else
      -- the scan only returns ordinals present in the table
      let pod := (findPod p.Pods ordinal).getD ⟨"", 0, 0, 0⟩
      ((ordinal, formatURL p pod.IP), p)

/-- Go `shouldUpdateProxyList`: `false` for a stale version; otherwise
`true` iff the new list differs in size or in some ordinal's IP. -/
def shouldUpdateProxyList (p : Proxy) (newProxyList : List (Int × String))
    (version : Int) : Bool :=
  if version ≤ p.Version then false
  else if p.Pods.length ≠ newProxyList.length then true
  else newProxyList.any (fun e =>
    match findPod p.Pods e.1 with
    | none => true
    | some pod => e.2 ≠ pod.IP)

/-- Go `&Pod{IP: newIP}`: a fresh zero-valued record. -/
def freshPod (ip : String) : Pod := { IP := ip, Timestamp := 0, Counter := 0, Free := 0 }

/-- The `newLastPodOrdinal` computation of `updateKnownProxies`:
maximum ordinal of the new list, starting from 0. -/
def newLastOrdinal (newProxyList : List (Int × String)) : Int :=
  newProxyList.foldl (fun acc e => if e.1 > acc then e.1 else acc) 0

/-- The `newPods` construction of `updateKnownProxies`: keep the old
record when the ordinal exists with an unchanged IP, otherwise a fresh
zero-valued record.  (Go builds a map keyed by the new list's ordinals;
with duplicate-free keys the iteration order is immaterial and the map
is this list.) -/
def buildNewPods (oldPods : List (Int × Pod)) (newProxyList : List (Int × String)) :
    List (Int × Pod) :=
  newProxyList.map (fun e =>
    match findPod oldPods e.1 with
    | some pod => if pod.IP = e.2 then (e.1, pod) else (e.1, freshPod e.2)
    | none => (e.1, freshPod e.2))

/-- The write-locked section of `updateKnownProxies`: re-check
`p.Version < version` and replace pods, version and last ordinal. -/
def replaceProxyList (p : Proxy) (newProxyList : List (Int × String))
    (version : Int) : Proxy :=
  if p.Version < version then
    { p with Pods := buildNewPods p.Pods newProxyList,
             Version := version,
             LastPodOrdinal := newLastOrdinal newProxyList }
  else p

/-- The full-list-update path of `updateKnownProxies` (Go lines: the
`shouldUpdateProxyList` gate followed by the locked replacement); the
spec calls this operation `applyListUpdate`. -/
def applyListUpdate (p : Proxy) (newProxyList : List (Int × String))
    (version : Int) : Proxy :=
  if shouldUpdateProxyList p newProxyList version then
    replaceProxyList p newProxyList version
  else p

/-- Decimal digit value of a character, if it is a digit. -/
def digitVal (c : Char) : Option Nat :=
  if '0' ≤ c ∧ c ≤ '9' then some (c.toNat - '0'.toNat) else none

/-- Accumulate a decimal number over a digit list; `none` on a non-digit. -/
def digitsVal : List Char → Nat → Option Nat
  | [], acc => some acc
  | c :: t, acc =>
    match digitVal c with
    | none => none
    | some d => digitsVal t (acc * 10 + d)

/-- Model of Go `strconv.ParseInt(s, 10, 64)`: an optional sign followed by
at least one decimal digit, rejecting values outside the `int64` range
(Go reports a range error there). -/
def parseIntChars (cs : List Char) : Option Int :=
  match cs with
  | [] => none
  | c :: rest =>
    let ds := if c = '-' ∨ c = '+' then rest else c :: rest
    if ds = [] then none
    else
      match digitsVal ds 0 with
      | none => none
      | some n =>
        if c = '-' then
          if (n : Int) ≤ 2 ^ 63 then some (-(n : Int)) else none
        else
          if (n : Int) ≤ maxInt64 then some (n : Int) else none

/-- Go `strconv.ParseInt(header, 10, 64)` on a header value (a missing
header reads as `""`, which fails to parse). -/
def parseInt (s : String) : Option Int := parseIntChars s.data

/-- Characters of a JSON string up to its closing quote (escape sequences,
which never occur in the addresses this protocol carries, are rejected). -/
def takeUntilQuote : List Char → Option (List Char × List Char)
  | [] => none
  | c :: rest =>
    if c = '"' then some ([], rest)
    else if c = '\\' then none
    else
      match takeUntilQuote rest with
      | some (s, r) => some (c :: s, r)
      | none => none

/-- Insertion with map semantics (a duplicate JSON key overwrites the
earlier binding), keeping the key set duplicate free. -/
def jsonInsert (l : List (Int × String)) (k : Int) (v : String) : List (Int × String) :=
  if l.any (fun e => e.1 = k) then l.map (fun e => if e.1 = k then (k, v) else e)
  else l ++ [(k, v)]

/-- Member sequence of a compact JSON object `"int":"string", ...` up to
the closing brace.  Fuel decreases on each member; the initial fuel of
one unit per input character suffices. -/
def parsePairs : Nat → List Char → List (Int × String) → Option (List (Int × String))
  | 0, _, _ => none
  | fuel + 1, input, acc =>
    match input with
    | '"' :: rest =>
      match takeUntilQuote rest with
      | none => none
      | some (keyChars, rest₁) =>
        match parseIntChars keyChars with
        | none => none
        | some k =>
          match rest₁ with
          | ':' :: '"' :: rest₂ =>
            match takeUntilQuote rest₂ with
            | none => none
            | some (valChars, rest₃) =>
              let acc₁ := jsonInsert acc k (String.mk valChars)
              match rest₃ with
              | ',' :: rest₄ => parsePairs fuel rest₄ acc₁
              | ['}'] => some acc₁
              | _ => none
          | _ => none
    | _ => none

/-- Model of Go `parseProxyList` (a `json.Unmarshal` of the `Proxy-List`
header into `map[int]string`), restricted to the compact objects the
proxies emit: `null`, `{}` or `{"int":"addr",...}` without whitespace or
escapes.  A missing header reads as `""` and fails to parse, exactly as
`json.Unmarshal` fails on empty input. -/
def parseProxyList (s : String) : Option (List (Int × String)) :=
  match s.data with
  | ['n', 'u', 'l', 'l'] => some []
  | '{' :: rest =>
    match rest with
    | ['}'] => some []
    | _ => parsePairs (rest.length + 1) rest []
  | _ => none

/-- HTTP headers as an association list of name/value pairs. -/
abbrev HeaderMap := List (String × String)

/-- Go `header.Get`: first value for the name, `""` when absent. -/
def headerGet (h : HeaderMap) (k : String) : String :=
  match h with
  | [] => ""
  | (a, b) :: t => if a = k then b else headerGet t k

/-- Go `header.Del`: remove every value for the name. -/
def headerDel (h : HeaderMap) (k : String) : HeaderMap :=
  h.filter (fun e => e.1 ≠ k)

/-- Go `header.Set`: replace the name's values with the single given one. -/
def headerSet (h : HeaderMap) (k v : String) : HeaderMap :=
  headerDel h k ++ [(k, v)]

/-- Go `updateKnownProxies`: parse the six protocol headers (failing fast
with an error naming the first offending header, as the Go code's
`fmt.Errorf` messages do), then run the full-list-update path and the
per-pod stat update, and return the parsed `Proxy-Status`. -/
def updateKnownProxies (p : Proxy) (header : HeaderMap) (now : Nat) :
    Except String (Int × Proxy) :=
  match parseInt (headerGet header "Proxy-Free") with
  | none => .error "error parsing Proxy-Free"
  | some newProxyFree =>
  match parseInt (headerGet header "Proxy-Ordinal") with
  | none => .error "error parsing Proxy-Ordinal"
  | some proxyOrdinal =>
  match parseInt (headerGet header "Proxy-Version") with
  | none => .error "error parsing Proxy-Version"
  | some version =>
  match parseInt (headerGet header "Proxy-Counter") with
  | none => .error "error parsing Proxy-Counter"
  | some proxyCounter =>
  match parseInt (headerGet header "Proxy-Status") with
  | none => .error "error parsing Proxy-Status"
  | some proxyStatus =>
  match parseProxyList (headerGet header "Proxy-List") with
  | none => .error "error parsing Proxy-List"
  | some newProxyList =>
    let p₁ := applyListUpdate p newProxyList version
    let p₂ := updateProxyPod p₁ proxyOrdinal proxyCounter newProxyFree now
    .ok (proxyStatus, p₂)

/-- Substring test on character lists (Go `strings.Contains`). -/
def listContainsSub : List Char → List Char → Bool
  | l, sub =>
    if sub.isPrefixOf l then true
    else
      match l with
      | [] => false
      | _ :: t => listContainsSub t sub

/-- Go `isRetryError`: the error text contains "connection timed out" or
"connection refused". -/
def isRetryError (msg : String) : Bool :=
  listContainsSub msg.data "connection timed out".data ||
  listContainsSub msg.data "connection refused".data

/-- An HTTP request as the client sees it: its destination URL and headers. -/
structure Request where
  url : String
  headers : HeaderMap
deriving DecidableEq, Repr

/-- The outcome of one outbound `client.Do` call: a transport error with
its message, or a response carrying headers. -/
inductive CallOutcome where
  | failure (msg : String)
  | success (respHeaders : HeaderMap)
deriving DecidableEq, Repr

/-- Result of a `Do` dispatch: the returned response headers or error,
the final client state, and the trace of outbound requests as they were
sent (destination URL and headers at send time). -/
structure DoResult where
  result : Except String HeaderMap
  state : Proxy
  sent : List Request
deriving Repr

/-- The header block of `Do`: set `Proxy-Forward-To` from the request's
current URL, set `Proxy-Webhook-Callback`, and set
`Proxy-Insecure-Skip-Verify` when the caller's transport skips
verification. -/
def setDoHeaders (p : Proxy) (insecure : Bool) (req : Request) : Request :=
  let h₁ := headerSet req.headers "Proxy-Forward-To" req.url
  let h₂ := headerSet h₁ "Proxy-Webhook-Callback" p.Config.WebhookCallbackURL
  let h₃ := if insecure then headerSet h₂ "Proxy-Insecure-Skip-Verify" "true" else h₂
  { req with headers := h₃ }

/-- The optimistic capacity decrement of `Do`:
`p.Pods[ordinal].Free -= int64(NumberOfSenders)`. -/
def decrementFree (p : Proxy) (ordinal : Int) : Proxy :=
  match findPod p.Pods ordinal with
  | none => p
  | some pod =>
    { p with Pods := setPod p.Pods ordinal { pod with Free := pod.Free - p.Config.NumberOfSenders } }

/-- The response-header deletions of `Do` before returning: `Proxy-Free`,
`Proxy-Ordinal`, `Proxy-Version` and `Proxy-List` are removed. -/
def stripRespHeaders (h : HeaderMap) : HeaderMap :=
  headerDel (headerDel (headerDel (headerDel h "Proxy-Free") "Proxy-Ordinal") "Proxy-Version") "Proxy-List"

/-- The state after the selection and optimistic-decrement prologue of a
`Do` attempt (the decrement only happens when a concrete pod was
selected). -/
def doAttemptState (p : Proxy) : Proxy :=
  let sel := determineBestProxy p
  if 0 ≤ sel.1.1 then decrementFree sel.2 sel.1.1 else sel.2

/-- The outbound request as one `Do` attempt actually sends it: headers
set from the request's current URL, then the URL rewritten to the
selected target.  A retry sees this rewritten request. -/
def doSentRequest (p : Proxy) (insecure : Bool) (req : Request) : Request :=
  { setDoHeaders (doAttemptState p) insecure req with url := (determineBestProxy p).1.2 }

/-- The retry loop of Go `Do`, one `CallOutcome` consumed per attempt
(`none` when the supplied outcome list is shorter than the attempts the
loop makes).  Each attempt selects a proxy, decrements its predicted
free count, sets the outbound headers, rewrites `req.URL` to the target
(the rewritten request is what a retry sees), performs the call, and
handles failure (mark dead, retry on connection-class errors while
`attempt < Attempts`) or success (interpret headers, strip internal
response headers). -/
def doLoop (insecure : Bool) (now : Nat) (p : Proxy) (req : Request) (attempt : Nat) :
    List CallOutcome → Option DoResult
  | [] => none
  | outcome :: rest =>
    let proxyOrdinal := (determineBestProxy p).1.1
    let p₂ := doAttemptState p
    let req₂ := doSentRequest p insecure req
    match outcome with
    | .failure msg =>
      if 0 ≤ proxyOrdinal then
        let p₃ := markProxyPodAsDead p₂ proxyOrdinal
        if attempt < p.Config.Attempts ∧ isRetryError msg then
          match doLoop insecure now p₃ req₂ (attempt + 1) rest with
          | none => none
          | some r => some { r with sent := req₂ :: r.sent }
        else some { result := .error msg, state := p₃, sent := [req₂] }
      else some { result := .error msg, state := p₂, sent := [req₂] }
    | .success respHeaders =>
      match updateKnownProxies p₂ respHeaders now with
      | .error e => some { result := .error e, state := p₂, sent := [req₂] }
      | .ok (_, p₃) =>
        some { result := .ok (stripRespHeaders respHeaders), state := p₃, sent := [req₂] }

/-- Go `Do`: run the retry loop starting at attempt 1. -/
def Do (p : Proxy) (req : Request) (insecure : Bool) (now : Nat)
    (outcomes : List CallOutcome) : Option DoResult :=
  doLoop insecure now p req 1 outcomes

/-- Go `Ensure`: POST to the service URL with the `Proxy-Ensure-Requests`
header, interpret the response headers, and demand `Proxy-Status` 200
(`http.StatusOK`).  The request as sent is returned alongside the
result and the final state. -/
def Ensure (p : Proxy) (ensureRequests : Int) (outcome : CallOutcome) (now : Nat) :
    Request × Except String Unit × Proxy :=
  let req : Request :=
    { url := p.Service.toStr,
      headers := headerSet [] "Proxy-Ensure-Requests" (toString ensureRequests) }
  match outcome with
  | .failure msg => (req, .error msg, p)
  | .success respHeaders =>
    match updateKnownProxies p respHeaders now with
    | .error e => (req, .error e, p)
    | .ok (proxyStatus, p') =>
      if proxyStatus = 200 then (req, .ok (), p')
      else (req, .error ("Unexpected proxy status code " ++ toString proxyStatus), p')

/-- A sequence of stat updates applied in order
(each entry: ordinal, counter, free, now). -/
def applyStatUpdates (p : Proxy) : List (Int × Int × Int × Nat) → Proxy
  | [] => p
  | u :: us => applyStatUpdates (updateProxyPod p u.1 u.2.1 u.2.2.1 u.2.2.2) us

/-- The break-free part of the `determineBestProxyOrdinal` loop: over
ordinals that are not the last pod ordinal, the loop is a plain fold of
the accumulator (best ordinal, best free). -/
def scanFold (pods : List (Int × Pod)) : List Int → Int × Int → Int × Int
  | [], acc => acc
  | o :: rest, acc =>
    match findPod pods o with
    | none => scanFold pods rest acc
    | some pod =>
      if pod.Counter < 0 then scanFold pods rest acc
      else if pod.Free > acc.2 then scanFold pods rest (o, pod.Free)
      else scanFold pods rest acc

/-! Concrete states used by the examples the specification fixes and by
the witnesses. -/

/-- A service URL, `http://proxy:80/`. -/
def exService : URL := { scheme := "http", host := "proxy", port := "80", path := "/" }

/-- A client configuration: one sender, five attempts, no webhook. -/
def exConfig : Config := { NumberOfSenders := 1, Attempts := 5, WebhookCallbackURL := "" }

/-- The spec's selector example: pods 0/1/2 with free 5/10/1, all alive. -/
def exSelAlive : Proxy :=
  { Service := exService, Version := 3,
    Pods := [(0, ⟨"a", 0, 1, 5⟩), (1, ⟨"b", 0, 1, 10⟩), (2, ⟨"c", 0, 1, 1⟩)],
    LastPodOrdinal := 2, Config := exConfig }

/-- The spec's selector example with pod 1 marked dead. -/
def exSelDead1 : Proxy :=
  { exSelAlive with
    Pods := [(0, ⟨"a", 0, 1, 5⟩), (1, ⟨"b", 0, -1, 10⟩), (2, ⟨"c", 0, 1, 1⟩)] }

/-- A one-pod registry at list version 3, the pod carrying nonzero stats. -/
def exOnePod : Proxy :=
  { Service := exService, Version := 3,
    Pods := [(0, ⟨"a", 5, 7, 2⟩)], LastPodOrdinal := 0, Config := exConfig }

/-- A registry whose only pod is alive (counter 1, free 5). -/
def exAliveReg : Proxy :=
  { Service := exService, Version := 3,
    Pods := [(0, ⟨"a", 0, 1, 5⟩)], LastPodOrdinal := 0, Config := exConfig }

/-- A registry with two alive pods (free 5 and 3). -/
def exTwoPods : Proxy :=
  { Service := exService, Version := 3,
    Pods := [(0, ⟨"a", 0, 1, 5⟩), (1, ⟨"b", 0, 1, 3⟩)], LastPodOrdinal := 1,
    Config := exConfig }

/-- A registry whose only pod is dead. -/
def exDeadReg : Proxy :=
  { Service := exService, Version := 3,
    Pods := [(0, ⟨"a", 0, -1, 5⟩)], LastPodOrdinal := 0, Config := exConfig }

/-- A registry with no pods. -/
def exEmptyReg : Proxy :=
  { Service := exService, Version := 3, Pods := [], LastPodOrdinal := 0,
    Config := exConfig }

/-- A well-formed protocol response header set (all six required headers
present and parseable), plus an unrelated application header. -/
def exGoodHeaders : HeaderMap :=
  [("Proxy-Free", "7"), ("Proxy-Ordinal", "0"), ("Proxy-Version", "3"),
   ("Proxy-Counter", "9"), ("Proxy-Status", "200"),
   ("Proxy-List", "\x7b\x220\x22:\x22a\x22\x7d"), ("X-Other", "keep")]

/-- A header set whose `Proxy-Counter` value is not an integer. -/
def exBadCounterHeaders : HeaderMap :=
  [("Proxy-Free", "7"), ("Proxy-Ordinal", "0"), ("Proxy-Version", "3"),
   ("Proxy-Counter", "zzz"), ("Proxy-Status", "200"),
   ("Proxy-List", "\x7b\x220\x22:\x22a\x22\x7d")]

/-- A caller's request to the recipient, no headers set yet. -/
def exReq : Request := { url := "http://recipient/", headers := [] }

/-! Helper lemmas about the pod table. -/

theorem setPod_cons (k : Int) (v : Pod) (t : List (Int × Pod)) (o : Int) (pod : Pod) :
    setPod ((k, v) :: t) o pod =
      (if k = o then (k, pod) else (k, v)) :: setPod t o pod := by
  by_cases hk : k = o
  · simp only [setPod, List.map, if_pos hk]
  · simp only [setPod, List.map, if_neg hk]

theorem findPod_setPod_self (pods : List (Int × Pod)) (o : Int) (pod q : Pod)
    (h : findPod pods o = some q) : findPod (setPod pods o pod) o = some pod := by
  induction pods with
  | nil => simp [findPod] at h
  | cons e t ih =>
    obtain ⟨k, v⟩ := e
    rw [setPod_cons]
    by_cases hk : k = o
    · rw [if_pos hk]
      simp only [findPod, if_pos hk]
    · rw [if_neg hk]
      simp only [findPod, if_neg hk] at h ⊢
      exact ih h

theorem findPod_setPod_ne (pods : List (Int × Pod)) (o o' : Int) (pod : Pod)
    (h : o' ≠ o) : findPod (setPod pods o pod) o' = findPod pods o' := by
  induction pods with
  | nil => simp [findPod, setPod]
  | cons e t ih =>
    obtain ⟨k, v⟩ := e
    rw [setPod_cons]
    by_cases hk : k = o
    · rw [if_pos hk]
      have hne : ¬ k = o' := by omega
      simp only [findPod, if_neg hne]
      exact ih
    · rw [if_neg hk]
      simp only [findPod]
      by_cases hk' : k = o'
      · rw [if_pos hk', if_pos hk']
      · rw [if_neg hk', if_neg hk']
        exact ih

theorem findPod_mem (pods : List (Int × Pod)) (o : Int) (pod : Pod)
    (h : findPod pods o = some pod) : (o, pod) ∈ pods := by
  induction pods with
  | nil => simp [findPod] at h
  | cons e t ih =>
    obtain ⟨k, v⟩ := e
    simp only [findPod] at h
    by_cases hk : k = o
    · subst hk
      rw [if_pos rfl] at h
      cases h
      exact List.mem_cons_self _ _
    · rw [if_neg hk] at h
      exact List.mem_cons_of_mem _ (ih h)

theorem findPod_ne_nil (pods : List (Int × Pod)) (o : Int) (pod : Pod)
    (h : findPod pods o = some pod) : pods ≠ [] := by
  intro hnil
  rw [hnil] at h
  simp [findPod] at h

/-- One stat update never decreases any stored counter, and never removes
a record. -/
theorem updateProxyPod_counter_mono (p : Proxy) (o c f : Int) (now : Nat)
    (o' : Int) (pod : Pod) (h : findPod p.Pods o' = some pod) :
    ∃ pod', findPod (updateProxyPod p o c f now).Pods o' = some pod' ∧
      pod.Counter ≤ pod'.Counter := by
  cases hfind : findPod p.Pods o with
  | none =>
    simp only [updateProxyPod, hfind]
    exact ⟨pod, h, le_refl _⟩
  | some q =>
    by_cases hle : c ≤ q.Counter
    · simp only [updateProxyPod, hfind, if_pos hle]
      exact ⟨pod, h, le_refl _⟩
    · simp only [updateProxyPod, hfind, if_neg hle]
      by_cases ho : o' = o
      · subst ho
        rw [h] at hfind
        cases hfind
        refine ⟨_, findPod_setPod_self _ _ _ _ h, ?_⟩
        exact le_of_lt (lt_of_not_le hle)
      · exact ⟨pod, (findPod_setPod_ne _ _ _ _ ho).trans h, le_refl _⟩

/-- C1, part: counters are monotone over any sequence of stat updates. -/
theorem applyStatUpdates_counter_mono (us : List (Int × Int × Int × Nat))
    (p : Proxy) (o : Int) (pod : Pod) (h : findPod p.Pods o = some pod) :
    ∃ pod', findPod (applyStatUpdates p us).Pods o = some pod' ∧
      pod.Counter ≤ pod'.Counter := by
  induction us generalizing p pod with
  | nil => exact ⟨pod, h, le_refl _⟩
  | cons u us ih =>
    obtain ⟨pod₁, h₁, hle₁⟩ :=
      updateProxyPod_counter_mono p u.1 u.2.1 u.2.2.1 u.2.2.2 o pod h
    obtain ⟨pod₂, h₂, hle₂⟩ := ih _ _ h₁
    exact ⟨pod₂, h₂, le_trans hle₁ hle₂⟩

/-- C1: a stat update is accepted iff the record exists and the incoming
sequence is strictly greater than the stored one (the `-1` dead sentinel
is revived by any non-negative sequence); an accepted update stores
sequence, free capacity and timestamp; a rejected one changes nothing;
and over any sequence of stat updates the stored sequence is
non-decreasing. -/
theorem claim1_stat_update :
    (∀ (p : Proxy) (o c f : Int) (now : Nat) (pod : Pod),
      findPod p.Pods o = some pod → pod.Counter < c →
        findPod (updateProxyPod p o c f now).Pods o =
            some { pod with Counter := c, Free := f, Timestamp := now } ∧
          (∀ o', o' ≠ o →
            findPod (updateProxyPod p o c f now).Pods o' = findPod p.Pods o') ∧
          (updateProxyPod p o c f now).Version = p.Version ∧
          (updateProxyPod p o c f now).LastPodOrdinal = p.LastPodOrdinal ∧
          (updateProxyPod p o c f now).Service = p.Service) ∧
    (∀ (p : Proxy) (o c f : Int) (now : Nat) (pod : Pod),
      findPod p.Pods o = some pod → pod.Counter = -1 → 0 ≤ c →
        findPod (updateProxyPod p o c f now).Pods o =
          some { pod with Counter := c, Free := f, Timestamp := now }) ∧
    (∀ (p : Proxy) (o c f : Int) (now : Nat),
      findPod p.Pods o = none → updateProxyPod p o c f now = p) ∧
    (∀ (p : Proxy) (o c f : Int) (now : Nat) (pod : Pod),
      findPod p.Pods o = some pod → c ≤ pod.Counter →
        updateProxyPod p o c f now = p) ∧
    (∀ (p : Proxy) (us : List (Int × Int × Int × Nat)) (o : Int) (pod : Pod),
      findPod p.Pods o = some pod →
        ∃ pod', findPod (applyStatUpdates p us).Pods o = some pod' ∧
          pod.Counter ≤ pod'.Counter) := by
  refine ⟨?_, ?_, ?_, ?_, ?_⟩
  · intro p o c f now pod h hlt
    have hnle : ¬ c ≤ pod.Counter := not_le.mpr hlt
    simp only [updateProxyPod, h, if_neg hnle]
    exact ⟨findPod_setPod_self _ _ _ _ h,
      fun o' ho' => findPod_setPod_ne _ _ _ _ ho', by trivial, by trivial, by trivial⟩
  · intro p o c f now pod h hdead hc
    have hlt : pod.Counter < c := by omega
    have hnle : ¬ c ≤ pod.Counter := not_le.mpr hlt
    simp only [updateProxyPod, h, if_neg hnle]
    exact findPod_setPod_self _ _ _ _ h
  · intro p o c f now h
    simp only [updateProxyPod, h]
  · intro p o c f now pod h hle
    simp only [updateProxyPod, h, if_pos hle]
  · intro p us o pod h
    exact applyStatUpdates_counter_mono us p o pod h

/-- Witness for C1: the dead pod of `exDeadReg` (sequence `-1`) is revived
by an update carrying sequence 9, which stores counter, free and
timestamp. -/
theorem claim1_stat_update_witness :
    findPod (updateProxyPod exDeadReg 0 9 3 8).Pods 0 = some ⟨"a", 8, 9, 3⟩ :=
  claim1_stat_update.2.1 exDeadReg 0 9 3 8 ⟨"a", 0, -1, 5⟩ (by decide) (by decide)
    (by decide)

/-! Lemmas about the selector scan. -/

/-- If every pod of the table is dead, the scan never changes its
accumulator. -/
theorem bestScan_all_dead (pods : List (Int × Pod)) (last : Int)
    (hdead : ∀ o pod, findPod pods o = some pod → pod.Counter < 0) :
    ∀ (l : List Int) (b f : Int), bestScan pods last l b f = b := by
  intro l
  induction l with
  | nil => intro b f; rfl
  | cons o rest ih =>
    intro b f
    cases hfind : findPod pods o with
    | none => simp only [bestScan, hfind]; exact ih b f
    | some pod =>
      simp only [bestScan, hfind, if_pos (hdead o pod hfind)]
      exact ih b f

/-- Over ordinals other than the last one, the scan with break is the
plain fold `scanFold`. -/
theorem bestScan_append (pods : List (Int × Pod)) (last : Int)
    (l₁ l₂ : List Int) (hl : last ∉ l₁) :
    ∀ b f, bestScan pods last (l₁ ++ l₂) b f =
      bestScan pods last l₂ (scanFold pods l₁ (b, f)).1 (scanFold pods l₁ (b, f)).2 := by
  induction l₁ with
  | nil => intro b f; rfl
  | cons o rest ih =>
    intro b f
    have ho : o ≠ last := fun hc => hl (hc ▸ List.mem_cons_self _ _)
    have hrest : last ∉ rest := fun hc => hl (List.mem_cons_of_mem _ hc)
    cases hfind : findPod pods o with
    | none =>
      simp only [List.cons_append, bestScan, scanFold, hfind]
      exact ih hrest b f
    | some pod =>
      by_cases hc : pod.Counter < 0
      · simp only [List.cons_append, bestScan, scanFold, hfind, if_pos hc]
        exact ih hrest b f
      · have hbreak : ¬ (o = last ∧ f > 0) := fun hx => ho hx.1
        by_cases hfree : pod.Free > f
        · simp only [List.cons_append, bestScan, scanFold, hfind, if_neg hc,
            if_neg hbreak, if_pos hfree]
          exact ih hrest o pod.Free
        · simp only [List.cons_append, bestScan, scanFold, hfind, if_neg hc,
            if_neg hbreak, if_neg hfree]
          exact ih hrest b f

/-- The fold never decreases the best free count. -/
theorem scanFold_free_mono (pods : List (Int × Pod)) :
    ∀ (l : List Int) (b f : Int), f ≤ (scanFold pods l (b, f)).2 := by
  intro l
  induction l with
  | nil => intro b f; exact le_refl _
  | cons o rest ih =>
    intro b f
    cases hfind : findPod pods o with
    | none => simp only [scanFold, hfind]; exact ih b f
    | some pod =>
      by_cases hc : pod.Counter < 0
      · simp only [scanFold, hfind, if_pos hc]; exact ih b f
      · by_cases hfree : pod.Free > f
        · simp only [scanFold, hfind, if_neg hc, if_pos hfree]
          exact le_trans (le_of_lt hfree) (ih o pod.Free)
        · simp only [scanFold, hfind, if_neg hc, if_neg hfree]
          exact ih b f

/-- Once the scanned ordinals contain a live pod with positive free
count, the folded best free count is positive. -/
theorem scanFold_pos (pods : List (Int × Pod)) :
    ∀ (l : List Int) (b f : Int) (o : Int) (pod : Pod), o ∈ l →
      findPod pods o = some pod → 0 ≤ pod.Counter → 0 < pod.Free →
      0 < (scanFold pods l (b, f)).2 := by
  intro l
  induction l with
  | nil => intro b f o pod hmem; simp at hmem
  | cons o' rest ih =>
    intro b f o pod hmem hfind hcnt hfree
    rcases List.mem_cons.mp hmem with heq | hmem'
    · subst heq
      simp only [scanFold, hfind, if_neg (not_lt.mpr hcnt)]
      by_cases hgt : pod.Free > f
      · rw [if_pos hgt]
        exact lt_of_lt_of_le hfree (scanFold_free_mono pods rest o pod.Free)
      · rw [if_neg hgt]
        exact lt_of_lt_of_le (lt_of_lt_of_le hfree (not_lt.mp hgt))
          (scanFold_free_mono pods rest b f)
    · cases hfind' : findPod pods o' with
      | none =>
        simp only [scanFold, hfind']
        exact ih b f o pod hmem' hfind hcnt hfree
      | some pod' =>
        by_cases hc : pod'.Counter < 0
        · simp only [scanFold, hfind', if_pos hc]
          exact ih b f o pod hmem' hfind hcnt hfree
        · by_cases hgt : pod'.Free > f
          · simp only [scanFold, hfind', if_neg hc, if_pos hgt]
            exact ih o' pod'.Free o pod hmem' hfind hcnt hfree
          · simp only [scanFold, hfind', if_neg hc, if_neg hgt]
            exact ih b f o pod hmem' hfind hcnt hfree

/-- The folded best ordinal is the initial one or a scanned ordinal. -/
theorem scanFold_mem (pods : List (Int × Pod)) :
    ∀ (l : List Int) (b f : Int),
      (scanFold pods l (b, f)).1 = b ∨ (scanFold pods l (b, f)).1 ∈ l := by
  intro l
  induction l with
  | nil => intro b f; exact Or.inl rfl
  | cons o rest ih =>
    intro b f
    have step : ∀ b' f', (scanFold pods rest (b', f')).1 = b' ∨
        (scanFold pods rest (b', f')).1 ∈ o :: rest := by
      intro b' f'
      rcases ih b' f' with h | h
      · exact Or.inl h
      · exact Or.inr (List.mem_cons_of_mem _ h)
    cases hfind : findPod pods o with
    | none => simp only [scanFold, hfind]; exact step b f
    | some pod =>
      by_cases hc : pod.Counter < 0
      · simp only [scanFold, hfind, if_pos hc]; exact step b f
      · by_cases hgt : pod.Free > f
        · simp only [scanFold, hfind, if_neg hc, if_pos hgt]
          rcases ih o pod.Free with h | h
          · rw [h]
            exact Or.inr (List.mem_cons_self _ _)
          · exact Or.inr (List.mem_cons_of_mem _ h)
        · simp only [scanFold, hfind, if_neg hc, if_neg hgt]
          exact step b f

/-- If the folded best free count moved, the best ordinal is a scanned
ordinal. -/
theorem scanFold_changed (pods : List (Int × Pod)) :
    ∀ (l : List Int) (b f : Int), (scanFold pods l (b, f)).2 ≠ f →
      (scanFold pods l (b, f)).1 ∈ l := by
  intro l
  induction l with
  | nil => intro b f h; exact absurd rfl h
  | cons o rest ih =>
    intro b f h
    cases hfind : findPod pods o with
    | none =>
      simp only [scanFold, hfind] at h ⊢
      exact List.mem_cons_of_mem _ (ih b f h)
    | some pod =>
      by_cases hc : pod.Counter < 0
      · simp only [scanFold, hfind, if_pos hc] at h ⊢
        exact List.mem_cons_of_mem _ (ih b f h)
      · by_cases hgt : pod.Free > f
        · simp only [scanFold, hfind, if_neg hc, if_pos hgt]
          rcases scanFold_mem pods rest o pod.Free with hm | hm
          · rw [hm]
            exact List.mem_cons_self _ _
          · exact List.mem_cons_of_mem _ hm
        · simp only [scanFold, hfind, if_neg hc, if_neg hgt] at h ⊢
          exact List.mem_cons_of_mem _ (ih b f h)

/-- The scan returns its initial accumulator or an ordinal holding a
live pod. -/
theorem bestScan_result (pods : List (Int × Pod)) (last : Int) :
    ∀ (l : List Int) (b f : Int), bestScan pods last l b f = b ∨
      ∃ pod, findPod pods (bestScan pods last l b f) = some pod ∧ 0 ≤ pod.Counter := by
  intro l
  induction l with
  | nil => intro b f; exact Or.inl rfl
  | cons o rest ih =>
    intro b f
    cases hfind : findPod pods o with
    | none => simp only [bestScan, hfind]; exact ih b f
    | some pod =>
      by_cases hc : pod.Counter < 0
      · simp only [bestScan, hfind, if_pos hc]; exact ih b f
      · by_cases hbreak : o = last ∧ f > 0
        · simp only [bestScan, hfind]
          rw [if_neg hc, if_pos hbreak]
          exact Or.inl rfl
        · simp only [bestScan, hfind]
          rw [if_neg hc, if_neg hbreak]
          by_cases hgt : pod.Free > f
          · rw [if_pos hgt]
            rcases ih o pod.Free with h | h
            · rw [h]
              exact Or.inr ⟨pod, hfind, not_lt.mp hc⟩
            · exact Or.inr h
          · rw [if_neg hgt]
            exact ih b f

/-- A scan of the last ordinal alone returns the accumulator whenever the
best free count is already positive (either the pod is absent or dead
and is skipped, or the break fires). -/
theorem bestScan_single_last (pods : List (Int × Pod)) (last : Int)
    (b f : Int) (hf : 0 < f) : bestScan pods last [last] b f = b := by
  cases hfind : findPod pods last with
  | none => simp only [bestScan, hfind]
  | some pod =>
    by_cases hc : pod.Counter < 0
    · simp [bestScan, hfind, hc]
    · simp [bestScan, hfind, hc, hf]

theorem mem_ordinalRange (last o : Int) :
    o ∈ ordinalRange last ↔ 0 ≤ o ∧ o ≤ last := by
  simp only [ordinalRange, List.mem_map, List.mem_range, Int.ofNat_eq_natCast]
  constructor
  · rintro ⟨k, hk, rfl⟩
    omega
  · rintro ⟨h0, h1⟩
    exact ⟨o.toNat, by omega, by omega⟩

theorem ordinalRange_split (last : Int) (h : 0 ≤ last) :
    ordinalRange last = ordinalRange (last - 1) ++ [last] := by
  have h1 : (last + 1).toNat = last.toNat + 1 := by omega
  have h2 : (last - 1 + 1).toNat = last.toNat := by omega
  have h3 : Int.ofNat last.toNat = last := by
    rw [Int.ofNat_eq_natCast]
    omega
  unfold ordinalRange
  rw [h1, h2, List.range_succ, List.map_append]
  simp only [List.map_cons, List.map_nil, h3]

/-- C7: with an empty node table the selector returns the fleet entry
address unchanged; with a non-empty table in which every record is dead
it clears the table, resets the highest index, and returns the fleet
entry address (index -1). -/
theorem claim7_selector_reset :
    (∀ p : Proxy, p.Pods = [] → determineBestProxy p = ((-1, p.Service.toStr), p)) ∧
    (∀ p : Proxy, p.Pods ≠ [] → (∀ e ∈ p.Pods, (e.2).Counter < 0) →
      determineBestProxy p =
        ((-1, p.Service.toStr), { p with Pods := [], LastPodOrdinal := 0 })) := by
  constructor
  · intro p h
    simp only [determineBestProxy, if_pos h]
  · intro p hne hdead
    have hscan : determineBestProxyOrdinal p = -1 := by
      unfold determineBestProxyOrdinal
      exact bestScan_all_dead p.Pods p.LastPodOrdinal
        (fun o pod hfind => hdead (o, pod) (findPod_mem _ _ _ hfind)) _ _ _
    simp only [determineBestProxy, if_neg hne, hscan]
    norm_num

/-- Witness for C7: the all-dead one-pod registry is cleared and the
fleet entry address is returned. -/
theorem claim7_selector_reset_witness :
    determineBestProxy exDeadReg =
      ((-1, exDeadReg.Service.toStr), { exDeadReg with Pods := [], LastPodOrdinal := 0 }) :=
  claim7_selector_reset.2 exDeadReg (by decide) (by decide)

/-- When the selector picks a concrete ordinal, that ordinal is the scan
result, the state is untouched, and a live pod is stored there. -/
theorem determineBestProxy_pos (p : Proxy) (h : 0 ≤ (determineBestProxy p).1.1) :
    (determineBestProxy p).1.1 = determineBestProxyOrdinal p ∧
    (determineBestProxy p).2 = p ∧
    ∃ pod, findPod p.Pods (determineBestProxy p).1.1 = some pod ∧ 0 ≤ pod.Counter := by
  by_cases hnil : p.Pods = []
  · simp [determineBestProxy, hnil] at h
  · by_cases hneg : determineBestProxyOrdinal p < 0
    · simp [determineBestProxy, hnil, hneg] at h
    · simp only [determineBestProxy, if_neg hnil, if_neg hneg]
      refine ⟨by trivial, by trivial, ?_⟩
      rcases bestScan_result p.Pods p.LastPodOrdinal
          (ordinalRange p.LastPodOrdinal) (-1) (-maxInt64) with hres | hres
      · exact absurd (show determineBestProxyOrdinal p < 0 by
          unfold determineBestProxyOrdinal
          rw [hres]
          norm_num) hneg
      · obtain ⟨pod, hfind, hcnt⟩ := hres
        exact ⟨pod, hfind, hcnt⟩

/-- C2: the selector scans `0..highestIndex`, skipping dead or absent
records and tracking the maximum free capacity, and never lands on the
highest index once a live candidate with strictly positive free
capacity exists below it; on the spec's concrete registries it picks
index 1 (all alive) respectively index 0 (index 1 dead). -/
theorem claim2_selector_scan :
    (∀ (p : Proxy) (o : Int) (pod : Pod),
      0 ≤ o → o < p.LastPodOrdinal → findPod p.Pods o = some pod →
      0 ≤ pod.Counter → 0 < pod.Free →
        0 ≤ (determineBestProxy p).1.1 ∧
        (determineBestProxy p).1.1 < p.LastPodOrdinal ∧
        (determineBestProxy p).2 = p) ∧
    (determineBestProxy exSelAlive).1.1 = 1 ∧
    (determineBestProxy exSelDead1).1.1 = 0 := by
  refine ⟨?_, by decide, by decide⟩
  intro p o pod h0 hlt hfind hcnt hfree
  have hlast0 : 0 ≤ p.LastPodOrdinal := le_trans h0 (le_of_lt hlt)
  have hnotmem : p.LastPodOrdinal ∉ ordinalRange (p.LastPodOrdinal - 1) := by
    rw [mem_ordinalRange]
    omega
  have homem : o ∈ ordinalRange (p.LastPodOrdinal - 1) := by
    rw [mem_ordinalRange]
    omega
  set F := scanFold p.Pods (ordinalRange (p.LastPodOrdinal - 1)) (-1, -maxInt64) with hF
  have hscan : determineBestProxyOrdinal p =
      bestScan p.Pods p.LastPodOrdinal [p.LastPodOrdinal] F.1 F.2 := by
    unfold determineBestProxyOrdinal
    rw [ordinalRange_split p.LastPodOrdinal hlast0, hF]
    exact bestScan_append _ _ _ _ hnotmem _ _
  have hpos : 0 < F.2 := by
    rw [hF]
    exact scanFold_pos _ _ _ _ o pod homem hfind hcnt hfree
  have hres : determineBestProxyOrdinal p = F.1 := by
    rw [hscan]
    exact bestScan_single_last _ _ _ _ hpos
  have hne : F.2 ≠ -maxInt64 := by
    intro hx
    rw [hx] at hpos
    revert hpos
    norm_num [maxInt64]
  have hmem2 : F.1 ∈ ordinalRange (p.LastPodOrdinal - 1) := by
    rw [hF]
    apply scanFold_changed
    rw [← hF]
    exact hne
  have hbounds := (mem_ordinalRange _ _).mp hmem2
  have hord0 : 0 ≤ determineBestProxyOrdinal p := by
    rw [hres]
    exact hbounds.1
  have hordlt : determineBestProxyOrdinal p < p.LastPodOrdinal := by
    rw [hres]
    omega
  have hnil : p.Pods ≠ [] := findPod_ne_nil _ _ _ hfind
  have hnneg : ¬ determineBestProxyOrdinal p < 0 := not_lt.mpr hord0
  refine ⟨?_, ?_, ?_⟩
  · simp only [determineBestProxy, if_neg hnil, if_neg hnneg]
    exact hord0
  · simp only [determineBestProxy, if_neg hnil, if_neg hnneg]
    exact hordlt
  · simp [determineBestProxy, hnil, hnneg]

/-- Witness for C2: on the all-alive example registry the selector picks
a concrete index strictly below the highest one, without touching the
state. -/
theorem claim2_selector_scan_witness :
    0 ≤ (determineBestProxy exSelAlive).1.1 ∧
    (determineBestProxy exSelAlive).1.1 < exSelAlive.LastPodOrdinal ∧
    (determineBestProxy exSelAlive).2 = exSelAlive :=
  claim2_selector_scan.1 exSelAlive 1 ⟨"b", 0, 1, 10⟩ (by decide) (by decide)
    (by decide) (by decide) (by decide)

/-! Lemmas about full-list updates. -/

/-- A list update that passes the gate carries a strictly newer version. -/
theorem shouldUpdateProxyList_version (p : Proxy) (L : List (Int × String)) (v : Int)
    (h : shouldUpdateProxyList p L v = true) : p.Version < v := by
  by_cases hv : v ≤ p.Version
  · rw [shouldUpdateProxyList, if_pos hv] at h
    cases h
  · exact not_le.mp hv

/-- Record-level description of the rebuilt pod table: an index of the
new list keeps its old record exactly when the stored IP is unchanged,
gets a fresh zero-valued record otherwise, and indices outside the new
list are absent. -/
theorem findPod_buildNewPods (old : List (Int × Pod)) (L : List (Int × String)) (i : Int) :
    findPod (buildNewPods old L) i = (findIP L i).map (fun ip =>
      match findPod old i with
      | some pod => if pod.IP = ip then pod else freshPod ip
      | none => freshPod ip) := by
  induction L with
  | nil => rfl
  | cons e t ih =>
    obtain ⟨k, ip⟩ := e
    by_cases hk : k = i
    · subst hk
      cases hf : findPod old k with
      | none => simp [buildNewPods, findPod, findIP, hf]
      | some pod =>
        by_cases hip : pod.IP = ip
        · simp [buildNewPods, findPod, findIP, hf, hip]
        · simp [buildNewPods, findPod, findIP, hf, hip]
    · cases hf : findPod old k with
      | none => simpa [buildNewPods, findPod, findIP, hk, hf] using ih
      | some pod =>
        by_cases hip : pod.IP = ip
        · simpa [buildNewPods, findPod, findIP, hk, hf, hip] using ih
        · simpa [buildNewPods, findPod, findIP, hk, hf, hip] using ih

theorem shouldUpdateProxyList_stale (p : Proxy) (L : List (Int × String)) (v : Int)
    (h : v ≤ p.Version) : shouldUpdateProxyList p L v = false := by
  rw [shouldUpdateProxyList, if_pos h]

theorem replaceProxyList_stale (p : Proxy) (L : List (Int × String)) (v : Int)
    (h : v ≤ p.Version) : replaceProxyList p L v = p := by
  rw [replaceProxyList, if_neg (not_lt.mpr h)]

theorem applyListUpdate_stale (p : Proxy) (L : List (Int × String)) (v : Int)
    (h : v ≤ p.Version) : applyListUpdate p L v = p := by
  simp [applyListUpdate, shouldUpdateProxyList_stale p L v h]

/-- C3 counterexample: applying the identical one-pod list at version 4 to
a registry stored at version 3 changes nothing at all — in particular
`listVersion` does not become 4 as the claim states. -/
theorem claim3_counterexample :
    applyListUpdate exOnePod [(0, "a")] 4 = exOnePod ∧
    (applyListUpdate exOnePod [(0, "a")] 4).Version ≠ 4 := by
  refine ⟨by rfl, by decide⟩

/-- C3 amended: a full-list update with a strictly newer version is
applied only when the list actually differs (in size or in some
address); then indices with an unchanged address keep their record
(dead markers included), every other index of the new list gets a fresh
zero-valued record, dropped indices disappear, the highest index
becomes the maximum index of the new list, and the version is stored.
An identical list — even at a strictly newer version — is skipped
entirely, leaving the registry (its version included) unchanged. -/
theorem claim3_list_replace_amended :
    (∀ (p : Proxy) (L : List (Int × String)) (v : Int),
      shouldUpdateProxyList p L v = true →
        (applyListUpdate p L v).Version = v ∧
        (applyListUpdate p L v).LastPodOrdinal = newLastOrdinal L ∧
        (∀ i ip pod, findIP L i = some ip → findPod p.Pods i = some pod → pod.IP = ip →
          findPod (applyListUpdate p L v).Pods i = some pod) ∧
        (∀ i ip, findIP L i = some ip →
          (∀ pod, findPod p.Pods i = some pod → pod.IP ≠ ip) →
          findPod (applyListUpdate p L v).Pods i = some (freshPod ip)) ∧
        (∀ i, findIP L i = none → findPod (applyListUpdate p L v).Pods i = none)) ∧
    (∀ (p : Proxy) (L : List (Int × String)) (v : Int),
      p.Pods.length = L.length →
      (∀ e ∈ L, ∃ pod, findPod p.Pods e.1 = some pod ∧ pod.IP = e.2) →
      applyListUpdate p L v = p) := by
  constructor
  · intro p L v hs
    have hv : p.Version < v := shouldUpdateProxyList_version p L v hs
    have happ : applyListUpdate p L v =
        { p with Pods := buildNewPods p.Pods L, Version := v,
                 LastPodOrdinal := newLastOrdinal L } := by
      simp [applyListUpdate, hs, replaceProxyList, if_pos hv]
    rw [happ]
    refine ⟨rfl, rfl, ?_, ?_, ?_⟩
    · intro i ip pod hL hold hip
      rw [findPod_buildNewPods, hL]
      simp only [Option.map_some', hold, hip, if_pos]
    · intro i ip hL hnone
      rw [findPod_buildNewPods, hL]
      simp only [Option.map_some']
      cases hold : findPod p.Pods i with
      | none => simp
      | some pod => simp [hnone pod hold]
    · intro i hL
      rw [findPod_buildNewPods, hL]
      rfl
  · intro p L v hlen hall
    have hfalse : shouldUpdateProxyList p L v = false := by
      rw [shouldUpdateProxyList]
      by_cases hvle : v ≤ p.Version
      · rw [if_pos hvle]
      · rw [if_neg hvle, if_neg (by omega)]
        rw [List.any_eq_false]
        intro e he
        obtain ⟨pod, hfind, hip⟩ := hall e he
        simp [hfind, hip]
    simp [applyListUpdate, hfalse]

/-- Witness for C3 (amended): growing the one-pod list to two pods at
version 4 stores the version and the new highest index, keeps pod 0's
stats (its address is unchanged) and creates pod 1 zero-valued. -/
theorem claim3_list_replace_amended_witness :
    (applyListUpdate exOnePod [(0, "a"), (1, "b")] 4).Version = 4 ∧
    (applyListUpdate exOnePod [(0, "a"), (1, "b")] 4).LastPodOrdinal = 1 ∧
    findPod (applyListUpdate exOnePod [(0, "a"), (1, "b")] 4).Pods 0 =
      some ⟨"a", 5, 7, 2⟩ ∧
    findPod (applyListUpdate exOnePod [(0, "a"), (1, "b")] 4).Pods 1 =
      some (freshPod "b") := by
  obtain ⟨h1, h2, h3, h4, h5⟩ :=
    claim3_list_replace_amended.1 exOnePod [(0, "a"), (1, "b")] 4 (by decide)
  refine ⟨h1, h2.trans (by decide), ?_, ?_⟩
  · exact h3 0 "a" ⟨"a", 5, 7, 2⟩ (by decide) (by decide) (by decide)
  · exact h4 1 "b" (by decide) (fun pod hp => Option.noConfusion hp)

/-- C8: a list update whose version is not strictly newer changes nothing:
the gate refuses it, the authoritative re-check under the write lock
refuses it, the whole path is an identity, and the path is idempotent
(a second application of the same list at the same version is a no-op). -/
theorem claim8_stale_list_noop :
    (∀ (p : Proxy) (L : List (Int × String)) (v : Int), v ≤ p.Version →
      shouldUpdateProxyList p L v = false) ∧
    (∀ (p : Proxy) (L : List (Int × String)) (v : Int), v ≤ p.Version →
      replaceProxyList p L v = p) ∧
    (∀ (p : Proxy) (L : List (Int × String)) (v : Int), v ≤ p.Version →
      applyListUpdate p L v = p) ∧
    (∀ (p : Proxy) (L : List (Int × String)) (v : Int),
      applyListUpdate (applyListUpdate p L v) L v = applyListUpdate p L v) := by
  refine ⟨shouldUpdateProxyList_stale, replaceProxyList_stale, applyListUpdate_stale, ?_⟩
  intro p L v
  by_cases hs : shouldUpdateProxyList p L v = true
  · have hv : p.Version < v := shouldUpdateProxyList_version p L v hs
    have h1 : applyListUpdate p L v = replaceProxyList p L v := by
      simp [applyListUpdate, hs]
    have h2 : (applyListUpdate p L v).Version = v := by
      rw [h1, replaceProxyList, if_pos hv]
    exact applyListUpdate_stale _ _ _ (le_of_eq h2.symm)
  · have hfalse : shouldUpdateProxyList p L v = false := by
      cases hbool : shouldUpdateProxyList p L v
      · rfl
      · exact absurd hbool hs
    have h1 : applyListUpdate p L v = p := by simp [applyListUpdate, hfalse]
    rw [h1]
    exact h1

/-- Witness for C8: a differing list at the stored version 3 is refused
and the registry is byte-for-byte unchanged. -/
theorem claim8_stale_list_noop_witness :
    applyListUpdate exOnePod [(0, "b")] 3 = exOnePod :=
  claim8_stale_list_noop.2.2.1 exOnePod [(0, "b")] 3 (by decide)

/-! Lemmas about the dispatch loop. -/

theorem markProxyPodAsDead_find (p : Proxy) (o : Int) (pod : Pod)
    (h : findPod p.Pods o = some pod) :
    findPod (markProxyPodAsDead p o).Pods o = some { pod with Counter := -1 } := by
  simp only [markProxyPodAsDead, h]
  exact findPod_setPod_self _ _ _ _ h

theorem decrementFree_find (p : Proxy) (o : Int) (pod : Pod)
    (h : findPod p.Pods o = some pod) :
    findPod (decrementFree p o).Pods o =
      some { pod with Free := pod.Free - p.Config.NumberOfSenders } := by
  simp only [decrementFree, h]
  exact findPod_setPod_self _ _ _ _ h

theorem decrementFree_config (p : Proxy) (o : Int) :
    (decrementFree p o).Config = p.Config := by
  cases h : findPod p.Pods o with
  | none => simp only [decrementFree, h]
  | some pod => simp only [decrementFree, h]

/-- When a concrete pod was selected, the attempt prologue is exactly the
free-count decrement on the untouched state. -/
theorem doAttemptState_pos (p : Proxy) (h : 0 ≤ (determineBestProxy p).1.1) :
    doAttemptState p = decrementFree p (determineBestProxy p).1.1 := by
  simp only [doAttemptState, if_pos h, (determineBestProxy_pos p h).2.1]

/-- C6: a connection-class failure (`isRetryError`) against a concrete
node marks it dead and retries with a fresh selection while the attempt
count is strictly below the bound; any other failure against a concrete
node is surfaced (after the marking) without retry; and any failure when
the fleet entry address (index -1) was the target is surfaced without
retry. -/
theorem claim6_retry_policy :
    ∀ (insecure : Bool) (now : Nat) (p : Proxy) (req : Request) (attempt : Nat)
      (msg : String) (rest : List CallOutcome),
      (0 ≤ (determineBestProxy p).1.1 → attempt < p.Config.Attempts →
        isRetryError msg = true →
        doLoop insecure now p req attempt (CallOutcome.failure msg :: rest) =
          (doLoop insecure now
              (markProxyPodAsDead (doAttemptState p) (determineBestProxy p).1.1)
              (doSentRequest p insecure req) (attempt + 1) rest).map
            (fun r => { r with sent := doSentRequest p insecure req :: r.sent })) ∧
      (0 ≤ (determineBestProxy p).1.1 →
        ¬ (attempt < p.Config.Attempts ∧ isRetryError msg = true) →
        doLoop insecure now p req attempt (CallOutcome.failure msg :: rest) =
          some { result := Except.error msg,
                 state := markProxyPodAsDead (doAttemptState p) (determineBestProxy p).1.1,
                 sent := [doSentRequest p insecure req] }) ∧
      ((determineBestProxy p).1.1 < 0 →
        doLoop insecure now p req attempt (CallOutcome.failure msg :: rest) =
          some { result := Except.error msg, state := doAttemptState p,
                 sent := [doSentRequest p insecure req] }) := by
  intro insecure now p req attempt msg rest
  refine ⟨?_, ?_, ?_⟩
  · intro hord hatt hretry
    simp only [doLoop]
    rw [if_pos hord, if_pos ⟨hatt, hretry⟩]
    cases doLoop insecure now
        (markProxyPodAsDead (doAttemptState p) (determineBestProxy p).1.1)
        (doSentRequest p insecure req) (attempt + 1) rest with
    | none => rfl
    | some r => rfl
  · intro hord hcond
    simp only [doLoop]
    rw [if_pos hord, if_neg hcond]
  · intro hord
    simp only [doLoop]
    rw [if_neg (not_le.mpr hord)]

/-- Witness for C6: with two live pods, one attempt left and a
"connection refused" failure, the loop recurses on the marked state with
the rewritten request. -/
theorem claim6_retry_policy_witness :
    doLoop false 42 exTwoPods exReq 1
        [CallOutcome.failure "connection refused", CallOutcome.success exGoodHeaders] =
      (doLoop false 42
          (markProxyPodAsDead (doAttemptState exTwoPods) (determineBestProxy exTwoPods).1.1)
          (doSentRequest exTwoPods false exReq) 2 [CallOutcome.success exGoodHeaders]).map
        (fun r => { r with sent := doSentRequest exTwoPods false exReq :: r.sent }) :=
  (claim6_retry_policy false 42 exTwoPods exReq 1 "connection refused"
    [CallOutcome.success exGoodHeaders]).1 (by decide) (by decide) (by decide)

/-- C9: a response whose required headers fail to parse makes the call
fail immediately with an error naming the first offending header — `Do`
does not retry regardless of the remaining attempt budget, and `Ensure`
surfaces the same error leaving the state untouched. -/
theorem claim9_parse_failure_fatal :
    (∀ (insecure : Bool) (now : Nat) (p : Proxy) (req : Request) (attempt : Nat)
      (rest : List CallOutcome) (h : HeaderMap) (e : String),
      updateKnownProxies (doAttemptState p) h now = .error e →
      doLoop insecure now p req attempt (CallOutcome.success h :: rest) =
        some { result := .error e, state := doAttemptState p,
               sent := [doSentRequest p insecure req] }) ∧
    (∀ (p : Proxy) (h : HeaderMap) (now : Nat),
      parseInt (headerGet h "Proxy-Free") = none →
      updateKnownProxies p h now = .error "error parsing Proxy-Free") ∧
    (∀ (p : Proxy) (h : HeaderMap) (now : Nat) (free : Int),
      parseInt (headerGet h "Proxy-Free") = some free →
      parseInt (headerGet h "Proxy-Ordinal") = none →
      updateKnownProxies p h now = .error "error parsing Proxy-Ordinal") ∧
    (∀ (p : Proxy) (h : HeaderMap) (now : Nat) (free ord : Int),
      parseInt (headerGet h "Proxy-Free") = some free →
      parseInt (headerGet h "Proxy-Ordinal") = some ord →
      parseInt (headerGet h "Proxy-Version") = none →
      updateKnownProxies p h now = .error "error parsing Proxy-Version") ∧
    (∀ (p : Proxy) (h : HeaderMap) (now : Nat) (free ord ver : Int),
      parseInt (headerGet h "Proxy-Free") = some free →
      parseInt (headerGet h "Proxy-Ordinal") = some ord →
      parseInt (headerGet h "Proxy-Version") = some ver →
      parseInt (headerGet h "Proxy-Counter") = none →
      updateKnownProxies p h now = .error "error parsing Proxy-Counter") ∧
    (∀ (p : Proxy) (h : HeaderMap) (now : Nat) (free ord ver ctr : Int),
      parseInt (headerGet h "Proxy-Free") = some free →
      parseInt (headerGet h "Proxy-Ordinal") = some ord →
      parseInt (headerGet h "Proxy-Version") = some ver →
      parseInt (headerGet h "Proxy-Counter") = some ctr →
      parseInt (headerGet h "Proxy-Status") = none →
      updateKnownProxies p h now = .error "error parsing Proxy-Status") ∧
    (∀ (p : Proxy) (h : HeaderMap) (now : Nat) (free ord ver ctr st : Int),
      parseInt (headerGet h "Proxy-Free") = some free →
      parseInt (headerGet h "Proxy-Ordinal") = some ord →
      parseInt (headerGet h "Proxy-Version") = some ver →
      parseInt (headerGet h "Proxy-Counter") = some ctr →
      parseInt (headerGet h "Proxy-Status") = some st →
      parseProxyList (headerGet h "Proxy-List") = none →
      updateKnownProxies p h now = .error "error parsing Proxy-List") ∧
    (∀ (p : Proxy) (n : Int) (h : HeaderMap) (now : Nat) (e : String),
      updateKnownProxies p h now = .error e →
      (Ensure p n (.success h) now).2.1 = .error e ∧
      (Ensure p n (.success h) now).2.2 = p) := by
  refine ⟨?_, ?_, ?_, ?_, ?_, ?_, ?_, ?_⟩
  · intro insecure now p req attempt rest h e hupd
    simp only [doLoop, hupd]
  · intro p h now h1
    simp only [updateKnownProxies, h1]
  · intro p h now free h1 h2
    simp only [updateKnownProxies, h1, h2]
  · intro p h now free ord h1 h2 h3
    simp only [updateKnownProxies, h1, h2, h3]
  · intro p h now free ord ver h1 h2 h3 h4
    simp only [updateKnownProxies, h1, h2, h3, h4]
  · intro p h now free ord ver ctr h1 h2 h3 h4 h5
    simp only [updateKnownProxies, h1, h2, h3, h4, h5]
  · intro p h now free ord ver ctr st h1 h2 h3 h4 h5 h6
    simp only [updateKnownProxies, h1, h2, h3, h4, h5, h6]
  · intro p n h now e hupd
    constructor <;> simp only [Ensure, hupd]

/-- Witness for C9: a malformed `Proxy-Counter` makes `Do` fail at once
with the error naming that header. -/
theorem claim9_parse_failure_fatal_witness :
    doLoop false 42 exAliveReg exReq 1 [CallOutcome.success exBadCounterHeaders] =
      some { result := .error "error parsing Proxy-Counter",
             state := doAttemptState exAliveReg,
             sent := [doSentRequest exAliveReg false exReq] } :=
  claim9_parse_failure_fatal.1 false 42 exAliveReg exReq 1 [] exBadCounterHeaders
    "error parsing Proxy-Counter" (by rfl)

/-- C10 counterexample: with a single dead pod the selector's reset path
returns the fleet entry address (index -1) and clears the table, so a
failure of the call leaves the registry changed — not unchanged as the
claim's fleet-entry clause states. -/
theorem claim10_counterexample :
    (determineBestProxy exDeadReg).1.1 = -1 ∧
    Do exDeadReg exReq false 42 [CallOutcome.failure "boom"] =
      some { result := .error "boom",
             state := { exDeadReg with Pods := [], LastPodOrdinal := 0 },
             sent := [doSentRequest exDeadReg false exReq] } ∧
    ({ exDeadReg with Pods := ([] : List (Int × Pod)), LastPodOrdinal := 0 } : Proxy) ≠
      exDeadReg := by
  refine ⟨by decide, by rfl, by decide⟩

/-- C10 amended: every transport-level error against a concrete node
(index ≥ 0) marks that node dead — its stored sequence becomes -1 while
its (optimistically decremented) free capacity and timestamp are kept —
before the error is surfaced or a retry is attempted, including
non-connection-class errors; when index -1 was the target nothing is
marked and the error handling returns the state exactly as selection
left it (which is the unchanged registry whenever the table was empty;
the selector's reset path may already have cleared an all-dead table). -/
theorem claim10_error_marking_amended :
    ∀ (insecure : Bool) (now : Nat) (p : Proxy) (req : Request) (attempt : Nat)
      (msg : String) (rest : List CallOutcome),
      (0 ≤ (determineBestProxy p).1.1 →
        (∃ pod, findPod p.Pods (determineBestProxy p).1.1 = some pod ∧
          findPod (markProxyPodAsDead (doAttemptState p) (determineBestProxy p).1.1).Pods
              (determineBestProxy p).1.1 =
            some ⟨pod.IP, pod.Timestamp, -1, pod.Free - p.Config.NumberOfSenders⟩) ∧
        doLoop insecure now p req attempt (CallOutcome.failure msg :: rest) =
          (if attempt < p.Config.Attempts ∧ isRetryError msg = true then
            (doLoop insecure now
                (markProxyPodAsDead (doAttemptState p) (determineBestProxy p).1.1)
                (doSentRequest p insecure req) (attempt + 1) rest).map
              (fun r => { r with sent := doSentRequest p insecure req :: r.sent })
          else
            some { result := Except.error msg,
                   state := markProxyPodAsDead (doAttemptState p) (determineBestProxy p).1.1,
                   sent := [doSentRequest p insecure req] })) ∧
      ((determineBestProxy p).1.1 < 0 →
        doLoop insecure now p req attempt (CallOutcome.failure msg :: rest) =
          some { result := Except.error msg, state := doAttemptState p,
                 sent := [doSentRequest p insecure req] } ∧
        (p.Pods = [] → doAttemptState p = p)) := by
  intro insecure now p req attempt msg rest
  constructor
  · intro hord
    constructor
    · obtain ⟨_, _, pod, hpod, _⟩ := determineBestProxy_pos p hord
      refine ⟨pod, hpod, ?_⟩
      have hdec : findPod (doAttemptState p).Pods (determineBestProxy p).1.1 =
          some { pod with Free := pod.Free - p.Config.NumberOfSenders } := by
        rw [doAttemptState_pos p hord]
        exact decrementFree_find p _ pod hpod
      exact markProxyPodAsDead_find _ _ _ hdec
    · by_cases hcond : attempt < p.Config.Attempts ∧ isRetryError msg = true
      · rw [if_pos hcond]
        simp only [doLoop]
        rw [if_pos hord, if_pos hcond]
        cases doLoop insecure now
            (markProxyPodAsDead (doAttemptState p) (determineBestProxy p).1.1)
            (doSentRequest p insecure req) (attempt + 1) rest with
        | none => rfl
        | some r => rfl
      · rw [if_neg hcond]
        simp only [doLoop]
        rw [if_pos hord, if_neg hcond]
  · intro hord
    constructor
    · simp only [doLoop]
      rw [if_neg (not_le.mpr hord)]
    · intro hnil
      have hsel : determineBestProxy p = ((-1, p.Service.toStr), p) := by
        simp [determineBestProxy, hnil]
      simp [doAttemptState, hsel]

/-- Witness for C10 (amended): a non-retryable failure against the
selected pod of the two-pod registry surfaces the error from the marked
state. -/
theorem claim10_error_marking_amended_witness :
    doLoop false 42 exTwoPods exReq 1 [CallOutcome.failure "boom"] =
      some { result := Except.error "boom",
             state := markProxyPodAsDead (doAttemptState exTwoPods)
               (determineBestProxy exTwoPods).1.1,
             sent := [doSentRequest exTwoPods false exReq] } := by
  have h := ((claim10_error_marking_amended false 42 exTwoPods exReq 1 "boom" []).1
    (by decide)).2
  rw [h, if_neg (by decide)]

/-- C4: the response returned by a successful `Do` still carries the
internal `Proxy-Counter` header — contrary to the claim (and the code's
own comment) that every internal header except `Proxy-Status` is
stripped; `Proxy-Free`, `Proxy-Ordinal`, `Proxy-Version` and
`Proxy-List` are indeed removed. -/
theorem claim4_counter_header_kept :
    (Do exAliveReg exReq false 42 [CallOutcome.success exGoodHeaders]).map
        (fun r => r.result.map (fun hdrs =>
          (headerGet hdrs "Proxy-Counter", headerGet hdrs "Proxy-Free",
           headerGet hdrs "Proxy-Ordinal", headerGet hdrs "Proxy-Version",
           headerGet hdrs "Proxy-List", headerGet hdrs "Proxy-Status"))) =
      some (Except.ok ("9", "", "", "", "", "200")) ∧
    ("9" : String) ≠ "" := by
  refine ⟨by rfl, by decide⟩

/-- C5: on the first attempt `Proxy-Forward-To` is the caller's original
target, but the attempt rewrites `req.URL` to the proxy's address, so
the retry sets `Proxy-Forward-To` to the *previous proxy's* URL instead
of the caller's original destination — contrary to the claim. -/
theorem claim5_forward_to_on_retry :
    (Do exTwoPods exReq false 42
        [CallOutcome.failure "connection refused", CallOutcome.success exGoodHeaders]).map
        (fun r => r.sent.map (fun q => (q.url, headerGet q.headers "Proxy-Forward-To"))) =
      some [("http://a:80/", "http://recipient/"), ("http://b:80/", "http://a:80/")] ∧
    exReq.url = "http://recipient/" ∧
    ("http://a:80/" : String) ≠ "http://recipient/" := by
  refine ⟨by rfl, by rfl, by decide⟩

end ProxyClient
